import Mathlib

/-!
Shallow embedding of the session & query orchestration core of the
`poke-app` repository, together with proofs checking the natural-language
specification against it.

The embedded code comes from:
* `src/contexts/AuthContext.tsx` — the SessionManager (`checkAuth`,
  `login`, `logout`) over `localStorage` (the PersistentStore);
* `src/pages/HomePage.tsx` — the QueryController (`isNumericSearch`,
  `formatSearchQuery`, `shouldSearchByNumber`, `fetchPokemon`, the two
  `useEffect` hooks);
* `src/components/Header.tsx` — the 300 ms trailing-edge debounce of the
  search input;
* `src/services/api.ts` — the shape of the remote calls.

Modelling conventions:
* JavaScript strings are Lean `String`s; `localStorage` entries are
  `Option String`-like fields (`none` = key absent).  JS truthiness of a
  string (`""` is falsy) is modelled explicitly where the source relies
  on it.
* The stored profile is modelled as an already-parsed record; the
  `JSON.stringify`/`JSON.parse` round trip is taken as the identity
  (the claims under study never store malformed profile text).
* Remote calls are modelled by oracles passed in as arguments; each
  operation returns, besides its state update, the list of remote calls
  it issued, so that "exactly one call" / "no call" statements are about
  the model and not about informal reading of the code.
* Asynchronous responses are applied synchronously (the claims proved
  here do not depend on response reordering).
-/

namespace PokeApp

/-! ### JavaScript string primitives

`String.prototype.trim`, `split(/\s+/)` and `/^\d+$/.test` as used by
`HomePage.tsx`.  `split(/\s+/)` has the JS quirks that the empty string
yields `[""]` and that leading/trailing separator runs produce empty
fields; `splitFields` reproduces them. -/

/-- Whitespace class of the regex `\s` (the ASCII part, which is all the
source ever feeds it). -/
def isWsChar (c : Char) : Bool :=
  c = ' ' || c = '\t' || c = '\n' || c = '\r' || c = '\x0b' || c = '\x0c'

/-- `String.prototype.trim` on a character list: drop leading and
trailing whitespace. -/
def trimChars (l : List Char) : List Char :=
  ((l.dropWhile isWsChar).reverse.dropWhile isWsChar).reverse

/-- `str.trim()`. -/
def jsTrim (s : String) : String :=
  String.mk (trimChars s.data)

/-- `str.split(/\s+/)` on a character list: fields between maximal
whitespace runs, empty fields included (`[] ↦ [[]]`, a leading run
yields a leading empty field, a trailing run a trailing one). -/
def splitFields : List Char → List (List Char)
  | [] => [[]]
  | [c] => if isWsChar c then [[], []] else [[c]]
  | c :: c2 :: cs =>
      let r := splitFields (c2 :: cs)
      if isWsChar c then
        if isWsChar c2 then r else [] :: r
      else
        match r with
        | [] => [[c]]
        | f :: fs => (c :: f) :: fs

/-- `str.split(/\s+/)`. -/
def jsSplitWs (s : String) : List String :=
  (splitFields s.data).map String.mk

/-- `/^\d+$/.test(s)`: one or more characters, all in `0`–`9`. -/
def testDigits (s : String) : Bool :=
  !s.data.isEmpty && s.data.all Char.isDigit

/-- JS truthiness of a string: `""` is falsy, everything else truthy. -/
def jsTruthy (s : String) : Bool :=
  s ≠ ""

/-! ### Specification-side tokenizer

Independent reading of "the whitespace-separated tokens of the text":
the maximal non-whitespace runs, with no empty tokens (so a text of
pure whitespace has no tokens).  Used to state the claims; the bridge
lemmas below connect it to the JS `trim`/`split` pipeline the code
uses. -/

/-- The whitespace-separated words of a character list (never contains
the empty word). -/
def wordsOf : List Char → List (List Char)
  | [] => []
  | [c] => if isWsChar c then [] else [[c]]
  | c :: c2 :: cs =>
      if isWsChar c then wordsOf (c2 :: cs)
      else
        if isWsChar c2 then [c] :: wordsOf cs
        else
          match wordsOf (c2 :: cs) with
          | [] => [[c]]
          | w :: ws => (c :: w) :: ws

/-- The whitespace-separated tokens of a string. -/
def wsTokens (s : String) : List String :=
  (wordsOf s.data).map String.mk

/-- `l` does not end in a whitespace character. -/
def noTrailingWs (l : List Char) : Prop :=
  ∀ x, l.getLast? = some x → isWsChar x = false

/-- `l` starts with a whitespace character. -/
def isWsHead : List Char → Bool
  | [] => false
  | c :: _ => isWsChar c

/-- Two-step induction on lists, with induction hypotheses for both the
tail and the tail of the tail. -/
def twoStepInduction {α : Type} {motive : List α → Prop}
    (h0 : motive []) (h1 : ∀ c, motive [c])
    (h2 : ∀ c c2 cs, motive (c2 :: cs) → motive cs → motive (c :: c2 :: cs)) :
    ∀ l, motive l
  | [] => h0
  | [c] => h1 c
  | c :: c2 :: cs =>
      h2 c c2 cs (twoStepInduction h0 h1 h2 (c2 :: cs)) (twoStepInduction h0 h1 h2 cs)

/-! ### QueryController helpers (`src/pages/HomePage.tsx`)

```js
const isNumericSearch = (value) => {
  const terms = value.trim().split(/\s+/)
  return terms.every(term => /^\d+$/.test(term))
}
const formatSearchQuery = (value) => {
  return value.trim().split(/\s+/).join(',')
}
const shouldSearchByNumber = () => {
  if (sortByNumber === true) return true
  if (sortByNumber === false) return false
  return search ? isNumericSearch(search) : false
}
```

`sortByNumber : boolean | null` is `Option Bool` (`none` = the `Unset`
sort mode, `some true` = by identifier, `some false` = by name). -/

/-- `arr.join(',')` for a list of strings. -/
def jsJoinComma : List String → String
  | [] => ""
  | [s] => s
  | s :: rest => s ++ "," ++ jsJoinComma rest

def isNumericSearch (value : String) : Bool :=
  (jsSplitWs (jsTrim value)).all testDigits

def formatSearchQuery (value : String) : String :=
  jsJoinComma (jsSplitWs (jsTrim value))

def shouldSearchByNumber (sortByNumber : Option Bool) (search : String) : Bool :=
  match sortByNumber with
  | some true => true
  | some false => false
  | none => if jsTruthy search then isNumericSearch search else false

/-! ### Catalog requests and responses (`src/services/api.ts`)

`pokemonApi.getList(params)` and `pokemonApi.getByNumber(query)` (the
dedicated identifier lookup; its shape is pinned down by the mocks in
`HomePage.test.tsx` and the search-flow tests).  Responses follow
`ApiResponse<PaginatedResponse<Pokemon>>`. -/

inductive SortByParam where
  | number
  | name
deriving DecidableEq

inductive SortOrderParam where
  | asc
  | desc
deriving DecidableEq

structure ListParams where
  limit : Nat
  offset : Nat
  search : Option String
  sortBy : SortByParam
  sortOrder : SortOrderParam
deriving DecidableEq

inductive CatalogRequest where
  | getByNumber (query : String)
  | getList (params : ListParams)
deriving DecidableEq

structure Pokemon where
  id : Nat
  name : String
  number : Nat
  image : String
  types : List String
deriving DecidableEq

structure PageInfo where
  total : Nat
  limit : Nat
  offset : Nat
  hasNext : Bool
  hasPrev : Bool
deriving DecidableEq

structure PageData where
  results : List Pokemon
  pagination : PageInfo
deriving DecidableEq

/-- `ApiResponse<PaginatedResponse<Pokemon>>`. -/
structure CatalogResult where
  success : Bool
  data : Option PageData
  error : Option String
deriving DecidableEq

/-- JS `x || fallback` on an optional string (`""` and absent are both
falsy). -/
def jsOrElse (e : Option String) (fallback : String) : String :=
  match e with
  | some s => if jsTruthy s then s else fallback
  | none => fallback

/-- `ITEMS_PER_PAGE` in `HomePage.tsx`. -/
def itemsPerPage : Nat := 21

/-- `Math.ceil(total / ITEMS_PER_PAGE)` on naturals. -/
def ceilDiv (n m : Nat) : Nat := (n + m - 1) / m

/-! ### The fetch of `HomePage.tsx`

```js
const fetchPokemon = useCallback(async () => {
  setIsLoading(true)
  setError('')
  const searchByNumber = shouldSearchByNumber()
  const formattedSearch = search ? formatSearchQuery(search) : ''
  if (formattedSearch && searchByNumber) {
    const response = await pokemonApi.getByNumber(formattedSearch)
    if (response.success && response.data) {
      setPokemon(response.data.results)
      setTotalPages(Math.ceil(response.data.pagination.total / ITEMS_PER_PAGE))
    } else {
      setPokemon([])
      setTotalPages(1)
    }
  } else {
    const offset = (currentPage - 1) * ITEMS_PER_PAGE
    const response = await pokemonApi.getList({
      limit: ITEMS_PER_PAGE, offset,
      search: formattedSearch || undefined,
      sortBy: searchByNumber ? 'number' : 'name',
      sortOrder: 'asc'
    })
    if (response.success && response.data) {
      setPokemon(response.data.results)
      setTotalPages(Math.ceil(response.data.pagination.total / ITEMS_PER_PAGE))
    } else {
      setError(response.error || 'Failed to load Pokémon')
    }
  }
  setIsLoading(false)
}, [currentPage, search, sortByNumber])
```

The remote call is an oracle `respond`; `fetchPokemon` returns the new
component state together with the list of remote calls it issued. -/

structure HomeState where
  pokemon : List Pokemon
  isLoading : Bool
  error : String
  currentPage : Nat
  totalPages : Nat
deriving DecidableEq

/-- Which request `fetchPokemon` sends, as a function of the committed
search text, the sort filter and the current page. -/
def planRequest (search : String) (sortByNumber : Option Bool)
    (currentPage : Nat) : CatalogRequest :=
  let searchByNumber := shouldSearchByNumber sortByNumber search
  let formattedSearch := if jsTruthy search then formatSearchQuery search else ""
  if jsTruthy formattedSearch && searchByNumber then
    CatalogRequest.getByNumber formattedSearch
  else
    CatalogRequest.getList
      { limit := itemsPerPage
        offset := (currentPage - 1) * itemsPerPage
        search := if jsTruthy formattedSearch then some formattedSearch else none
        sortBy := if searchByNumber then SortByParam.number else SortByParam.name
        sortOrder := SortOrderParam.asc }

/-- How `fetchPokemon` folds the response into the component state
(starting from the state that already had `isLoading := true`,
`error := ''` applied). -/
def applyFetchResponse (req : CatalogRequest) (response : CatalogResult)
    (s0 : HomeState) : HomeState :=
  match req, response.success, response.data with
  | CatalogRequest.getByNumber _, true, some d =>
      { s0 with pokemon := d.results
                totalPages := ceilDiv d.pagination.total itemsPerPage }
  | CatalogRequest.getByNumber _, _, _ =>
      { s0 with pokemon := [], totalPages := 1 }
  | CatalogRequest.getList _, true, some d =>
      { s0 with pokemon := d.results
                totalPages := ceilDiv d.pagination.total itemsPerPage }
  | CatalogRequest.getList _, _, _ =>
      { s0 with error := jsOrElse response.error "Failed to load Pokémon" }

def fetchPokemon (search : String) (sortByNumber : Option Bool)
    (respond : CatalogRequest → CatalogResult) (s : HomeState) :
    HomeState × List CatalogRequest :=
  let req := planRequest search sortByNumber s.currentPage
  let s1 := applyFetchResponse req (respond req)
    { s with isLoading := true, error := "" }
  ({ s1 with isLoading := false }, [req])

/-! ### The effect loop of `HomePage.tsx`

```js
useEffect(() => { fetchPokemon() }, [fetchPokemon])      // declared first
useEffect(() => { setCurrentPage(1) }, [search, sortByNumber])
```

React runs the effects of a committed render in declaration order,
re-running an effect exactly when its dependency list changed
(`fetchPokemon` is a `useCallback` over `[currentPage, search,
sortByNumber]`).  `commitEffects` is one such pass; `settle` iterates
passes (state updates made inside an effect trigger another render)
until the dependency lists are unchanged.  Responses are applied
synchronously. -/

structure QueryModel where
  search : String
  sortByNumber : Option Bool
  home : HomeState
  prevFetchDeps : Option (Nat × String × Option Bool)
  prevResetDeps : Option (String × Option Bool)
deriving DecidableEq

def fetchDepsOf (q : QueryModel) : Nat × String × Option Bool :=
  (q.home.currentPage, q.search, q.sortByNumber)

def resetDepsOf (q : QueryModel) : String × Option Bool :=
  (q.search, q.sortByNumber)

/-- One pass over the two effects, in their declaration order. -/
def commitEffects (respond : CatalogRequest → CatalogResult)
    (q : QueryModel) : QueryModel × List CatalogRequest :=
  let p := if q.prevFetchDeps ≠ some (fetchDepsOf q) then
      let r := fetchPokemon q.search q.sortByNumber respond q.home
      ({ q with home := r.1, prevFetchDeps := some (fetchDepsOf q) }, r.2)
    else (q, [])
  let q1 := p.1
  let q2 := if q1.prevResetDeps ≠ some (resetDepsOf q1) then
      { q1 with home := { q1.home with currentPage := 1 }
                prevResetDeps := some (resetDepsOf q1) }
    else q1
  (q2, p.2)

/-- All effect dependency lists are up to date: another render pass
would run nothing. -/
def stableModel (q : QueryModel) : Prop :=
  q.prevFetchDeps = some (fetchDepsOf q) ∧ q.prevResetDeps = some (resetDepsOf q)

instance (q : QueryModel) : Decidable (stableModel q) := by
  unfold stableModel; infer_instance

/-- Iterate render passes until no effect has pending work (fuel-bounded;
fuel 4 is enough for every event below). -/
def settle (respond : CatalogRequest → CatalogResult) :
    Nat → QueryModel → QueryModel × List CatalogRequest
  | 0, q => (q, [])
  | fuel + 1, q =>
      if stableModel q then (q, [])
      else
        let p := commitEffects respond q
        let rest := settle respond fuel p.1
        (rest.1, p.2 ++ rest.2)

/-- The debounced search text settling to a new value (via
`FilterContext.setSearch`). -/
def applySetSearch (v : String) (q : QueryModel) : QueryModel :=
  { q with search := v }

/-- Picking a sort mode in the Header modal
(`FilterContext.setSortByNumber`). -/
def applySetSort (b : Bool) (q : QueryModel) : QueryModel :=
  { q with sortByNumber := some b }

/-- `Pagination.onPageChange` → `setCurrentPage(n)`. -/
def applySetPage (n : Nat) (q : QueryModel) : QueryModel :=
  { q with home := { q.home with currentPage := n } }

/-! ### The search debounce of `src/components/Header.tsx`

```js
const [inputValue, setInputValue] = useState(searchValue)
useEffect(() => {
  const timer = setTimeout(() => { onSearchChange(inputValue) }, 300)
  return () => clearTimeout(timer)
}, [inputValue, onSearchChange])
```

Each keystroke updates `inputValue` immediately; the effect cleanup
clears the pending timer and schedules a new 300 ms timer capturing the
new value, so only a value left undisturbed for 300 ms is committed
(trailing-edge debounce).  Events are timestamped keystrokes processed
in time order; a pending timer whose deadline has passed fires before
the next keystroke is processed. -/

structure DebounceState where
  inputValue : String
  timer : Option (Nat × String)
deriving DecidableEq

/-- Process one keystroke `(t, v)`: fire the pending timer if its
deadline has passed, then set the raw value and re-arm the timer for
`t + 300` capturing `v`.  Returns the commits that fired. -/
def debounceKey (t : Nat) (v : String) (s : DebounceState) :
    DebounceState × List (Nat × String) :=
  let fired := match s.timer with
    | some (d, cv) => if d ≤ t then [(d, cv)] else []
    | none => []
  ({ inputValue := v, timer := some (t + 300, v) }, fired)

def runKeys : DebounceState → List (Nat × String) → DebounceState × List (Nat × String)
  | s, [] => (s, [])
  | s, (t, v) :: rest =>
      let p := debounceKey t v s
      let q := runKeys p.1 rest
      (q.1, p.2 ++ q.2)

/-- After quiescence the pending timer (if any) fires. -/
def flushTimer (s : DebounceState) : List (Nat × String) :=
  match s.timer with
  | some (d, cv) => [(d, cv)]
  | none => []

/-- Every event arrives strictly before the deadline `d`, and each
subsequent event strictly within 300 ms of the previous one. -/
def withinWindow : Nat → List (Nat × String) → Bool
  | _, [] => true
  | d, (t, _) :: rest => decide (t < d) && withinWindow (t + 300) rest

def keysPik : List (Nat × String) := [(0, "p"), (100, "pi"), (200, "pik")]

/-- Claim C7 as stated ("page is reset to 1 before the next fetch is
issued"): after a change of the committed search text or of the sort
mode from a quiescent state, the first request issued is already
computed with page 1. -/
def C7asStated : Prop :=
  (∀ (respond : CatalogRequest → CatalogResult) (q : QueryModel) (v : String),
      stableModel q → v ≠ q.search →
      (settle respond 4 (applySetSearch v q)).2.head? =
        some (planRequest v q.sortByNumber 1)) ∧
  (∀ (respond : CatalogRequest → CatalogResult) (q : QueryModel) (b : Bool),
      stableModel q → some b ≠ q.sortByNumber →
      (settle respond 4 (applySetSort b q)).2.head? =
        some (planRequest q.search (some b) 1))

/-- A quiescent model sitting on page 3 of an unfiltered listing. -/
def queryPage3 : QueryModel :=
  { search := ""
    sortByNumber := none
    home := { pokemon := [], isLoading := false, error := "", currentPage := 3,
              totalPages := 5 }
    prevFetchDeps := some (3, "", none)
    prevResetDeps := some ("", none) }

/-! ### SessionManager (`src/contexts/AuthContext.tsx`)

The PersistentStore is `localStorage` restricted to the two keys
`pokemon_auth_token` and `pokemon_user` (`none` = key absent).  The
stored profile is modelled as the parsed record (the
`JSON.stringify`/`JSON.parse` round trip is the identity on it).
Remote outcomes of `authApi.verify`/`authApi.login` are passed in, and
each operation also returns the list of remote calls it issued. -/

structure User where
  username : String
deriving DecidableEq

structure Store where
  token : Option String
  user : Option User
deriving DecidableEq

structure AuthState where
  user : Option User
  isLoading : Bool
deriving DecidableEq

inductive AuthCall where
  | verify (token : String)
  | login (username password : String)
deriving DecidableEq

/-- Outcome of `await authApi.verify(token)`: either a resolved
`ApiResponse` (whose optional `data.user` the code never reads) or a
thrown error. -/
inductive VerifyOutcome where
  | resolved (success : Bool) (data : Option User) (error : Option String)
  | threw
deriving DecidableEq

structure LoginData where
  token : String
  user : User
deriving DecidableEq

/-- Outcome of `await authApi.login(username, password)`. -/
inductive LoginOutcome where
  | resolved (success : Bool) (data : Option LoginData) (error : Option String)
  | threw
deriving DecidableEq

structure LoginResult where
  success : Bool
  error : Option String
deriving DecidableEq

/-- The guard `token && savedUser` (JS truthiness: a present-but-empty
token string is falsy; a stored profile serializes to a non-empty JSON
string, hence is truthy whenever present). -/
def storePresent (store : Store) : Bool :=
  match store.token, store.user with
  | some t, some _ => jsTruthy t
  | _, _ => false

/-- `checkAuth` (the bootstrap effect run once on mount):

```js
const token = localStorage.getItem(TOKEN_KEY)
const savedUser = localStorage.getItem(USER_KEY)
if (token && savedUser) {
  try {
    const response = await authApi.verify(token)
    if (response.success) { setUser(JSON.parse(savedUser)) }
    else { localStorage.removeItem(TOKEN_KEY); localStorage.removeItem(USER_KEY) }
  } catch {
    localStorage.removeItem(TOKEN_KEY); localStorage.removeItem(USER_KEY)
  }
}
setIsLoading(false)
``` -/
def checkAuth (store : Store) (verify : String → VerifyOutcome) :
    Store × AuthState × List AuthCall :=
  match store.token, store.user with
  | some t, some u =>
      if jsTruthy t then
        match verify t with
        | VerifyOutcome.resolved true _ _ =>
            (store, { user := some u, isLoading := false }, [AuthCall.verify t])
        | VerifyOutcome.resolved false _ _ =>
            ({ token := none, user := none }, { user := none, isLoading := false },
              [AuthCall.verify t])
        | VerifyOutcome.threw =>
            ({ token := none, user := none }, { user := none, isLoading := false },
              [AuthCall.verify t])
      else (store, { user := none, isLoading := false }, [])
  | _, _ => (store, { user := none, isLoading := false }, [])

/-- `login(username, password)` of `AuthContext.tsx`. -/
def login (store : Store) (st : AuthState) (username password : String)
    (outcome : LoginOutcome) : Store × AuthState × LoginResult × List AuthCall :=
  match outcome with
  | LoginOutcome.resolved success data err =>
      match success, data with
      | true, some d =>
          ({ token := some d.token, user := some d.user },
           { st with user := some d.user },
           { success := true, error := none },
           [AuthCall.login username password])
      | _, _ =>
          (store, st,
           { success := false, error := some (jsOrElse err "Login failed") },
           [AuthCall.login username password])
  | LoginOutcome.threw =>
      (store, st,
       { success := false, error := some "Network error. Please try again." },
       [AuthCall.login username password])

/-- `logout()` of `AuthContext.tsx`: remove both keys, clear the user.
The body contains no remote call (`authApi.logout` exists in
`api.ts` but is never invoked). -/
def logout (store : Store) (st : AuthState) : Store × AuthState × List AuthCall :=
  ({ token := none, user := none }, { st with user := none }, [])

/-- Both PersistentStore keys present together or absent together. -/
def pairedStore (store : Store) : Prop :=
  store.token.isSome = store.user.isSome

instance (store : Store) : Decidable (pairedStore store) := by
  unfold pairedStore; infer_instance

/-- Claim C5 as stated: `logout` performs the local transition *and*
issues at least one notification call to RemoteAuthority. -/
def C5asStated : Prop :=
  ∀ (store : Store) (st : AuthState),
    (logout store st).1 = { token := none, user := none } ∧
    (logout store st).2.1.user = none ∧
    (logout store st).2.2 ≠ []

/-- Claim C10 as stated: after each operation, from any initial store
contents, the two keys are both present or both absent. -/
def C10asStated : Prop :=
  (∀ (store : Store) (verify : String → VerifyOutcome),
     pairedStore (checkAuth store verify).1) ∧
  (∀ (store : Store) (st : AuthState) (u p : String) (outcome : LoginOutcome),
     pairedStore (login store st u p outcome).1) ∧
  (∀ (store : Store) (st : AuthState), pairedStore (logout store st).1)

/-- A store holding a credential but no profile (reachable only by
external manipulation of `localStorage`, but within C10's "any initial
store contents"). -/
def mismatchedStore : Store := { token := some "tok", user := none }

/-! ### Concrete fixtures for witnesses and counterexamples -/

def pokeBulbasaur : Pokemon :=
  { id := 1, name := "bulbasaur", number := 1, image := "url1", types := ["grass"] }

/-- The `useState` initial values of `HomePage.tsx`. -/
def homeInit : HomeState :=
  { pokemon := [], isLoading := true, error := "", currentPage := 1, totalPages := 1 }

/-- A page response carrying 46 total results. -/
def page46 : PageData :=
  { results := [pokeBulbasaur]
    pagination := { total := 46, limit := 21, offset := 0, hasNext := true, hasPrev := false } }

def respondWith (d : PageData) : CatalogRequest → CatalogResult :=
  fun _ => { success := true, data := some d, error := none }

def respondFail (msg : String) : CatalogRequest → CatalogResult :=
  fun _ => { success := false, data := none, error := some msg }

/-- A state in which a previous fetch already displayed one result. -/
def homeSeeded : HomeState :=
  { pokemon := [pokeBulbasaur], isLoading := false, error := "", currentPage := 1,
    totalPages := 1 }

/-- The failure path of a fetch: the guard `response.success &&
response.data` is false. -/
def fetchFailed (r : CatalogResult) : Prop :=
  r.success = false ∨ r.data = none

/-- Claim C6 as stated: every failed fetch both clears the result list
and surfaces a non-empty error message. -/
def C6asStated : Prop :=
  ∀ (search : String) (sb : Option Bool)
    (respond : CatalogRequest → CatalogResult) (s : HomeState),
    fetchFailed (respond (planRequest search sb s.currentPage)) →
      (fetchPokemon search sb respond s).1.pokemon = [] ∧
      (fetchPokemon search sb respond s).1.error ≠ ""

/-- A quiescent model on page 1 with an empty committed search. -/
def queryIdle : QueryModel :=
  { search := ""
    sortByNumber := none
    home := homeSeeded
    prevFetchDeps := some (1, "", none)
    prevResetDeps := some ("", none) }

def aliceUser : User := { username := "alice" }

def aliceStore : Store := { token := some "tok", user := some aliceUser }

def verifyOk : String → VerifyOutcome :=
  fun _ => VerifyOutcome.resolved true none none

def loginOkOutcome : LoginOutcome :=
  LoginOutcome.resolved true (some { token := "t1", user := aliceUser }) none

/-! ### Sanity checks on concrete inputs -/

example : wsTokens "char pika" = ["char", "pika"] := by decide
example : wsTokens "  25  " = ["25"] := by decide
example : wsTokens "   " = [] := by decide
example : jsSplitWs "" = [""] := by decide
example : jsSplitWs "char  pika" = ["char", "pika"] := by decide
example : jsSplitWs " a" = ["", "a"] := by decide
example : jsSplitWs "a " = ["a", ""] := by decide
example : jsTrim "  25  " = "25" := by decide
example : shouldSearchByNumber none "25" = true := by decide
example : shouldSearchByNumber none "1 2 3" = true := by decide
example : shouldSearchByNumber none "mega1" = false := by decide
example : shouldSearchByNumber none "" = false := by decide
example : shouldSearchByNumber none "   " = false := by decide
example : shouldSearchByNumber (some true) "mega1" = true := by decide
example : shouldSearchByNumber (some false) "25" = false := by decide
example : formatSearchQuery "char pika" = "char,pika" := by decide
example : formatSearchQuery "  " = "" := by decide

/-! ### Bridge lemmas: JS `trim`/`split(/\s+/)` versus `wordsOf` -/

theorem wordsOf_ws_cons {c : Char} (l : List Char) (h : isWsChar c = true) :
    wordsOf (c :: l) = wordsOf l := by
  cases l with
  | nil => simp [wordsOf, h]
  | cons c2 cs => simp [wordsOf, h]

theorem wordsOf_cons_ne_nil {c : Char} (l : List Char) (h : isWsChar c = false) :
    wordsOf (c :: l) ≠ [] := by
  cases l with
  | nil => simp [wordsOf, h]
  | cons c2 cs =>
      by_cases h2 : isWsChar c2 = true
      · simp [wordsOf, h, h2]
      · simp only [Bool.not_eq_true] at h2
        cases h3 : wordsOf (c2 :: cs) <;> simp [wordsOf, h, h2, h3]

theorem wordsOf_append_ws {c : Char} (h : isWsChar c = true) :
    ∀ l : List Char, wordsOf (l ++ [c]) = wordsOf l := by
  refine twoStepInduction ?_ ?_ ?_
  · simp [wordsOf, h]
  · intro a
    by_cases ha : isWsChar a = true
    · simp [wordsOf, ha, h]
    · simp only [Bool.not_eq_true] at ha
      simp [wordsOf, ha, h]
  · intro a b cs ih1 ih2
    by_cases ha : isWsChar a = true
    · simpa [wordsOf_ws_cons _ ha] using ih1
    · simp only [Bool.not_eq_true] at ha
      by_cases hb : isWsChar b = true
      · simp only [List.cons_append, wordsOf, ha, hb]
        simp [ih2]
      · simp only [Bool.not_eq_true] at hb
        have hne := wordsOf_cons_ne_nil (l := cs) hb
        have hne2 := wordsOf_cons_ne_nil (l := cs ++ [c]) hb
        simp only [List.cons_append] at ih1 ⊢
        cases h3 : wordsOf (b :: cs) with
        | nil => exact absurd h3 hne
        | cons w ws =>
            cases h4 : wordsOf (b :: (cs ++ [c])) with
            | nil => exact absurd h4 (by simpa using hne2)
            | cons w2 ws2 =>
                have : w2 :: ws2 = w :: ws := by
                  rw [← h3, ← h4, ← ih1]
                simp only [wordsOf, ha, hb, h3, h4, this]
                simp

theorem wordsOf_append_all_ws {w : List Char} (hw : ∀ x ∈ w, isWsChar x = true) :
    ∀ l : List Char, wordsOf (l ++ w) = wordsOf l := by
  induction w using List.reverseRecOn with
  | nil => simp
  | append_singleton w c ih =>
      intro l
      have hc : isWsChar c = true := hw c (by simp)
      have hw2 : ∀ x ∈ w, isWsChar x = true := fun x hx => hw x (by simp [hx])
      calc wordsOf (l ++ (w ++ [c])) = wordsOf ((l ++ w) ++ [c]) := by
              rw [List.append_assoc]
        _ = wordsOf (l ++ w) := wordsOf_append_ws hc _
        _ = wordsOf l := ih hw2 l

theorem wordsOf_dropWhile_ws (l : List Char) :
    wordsOf (l.dropWhile isWsChar) = wordsOf l := by
  induction l with
  | nil => rfl
  | cons c cs ih =>
      by_cases hc : isWsChar c = true
      · rw [List.dropWhile_cons_of_pos hc, ih, wordsOf_ws_cons _ hc]
      · simp only [Bool.not_eq_true] at hc
        rw [List.dropWhile_cons_of_neg (by simp [hc])]

theorem head?_dropWhile_ws {l : List Char} {c : Char}
    (h : (l.dropWhile isWsChar).head? = some c) : isWsChar c = false := by
  induction l with
  | nil => simp at h
  | cons a as ih =>
      by_cases ha : isWsChar a = true
      · rw [List.dropWhile_cons_of_pos ha] at h
        exact ih h
      · simp only [Bool.not_eq_true] at ha
        rw [List.dropWhile_cons_of_neg (by simp [ha])] at h
        simp only [List.head?_cons, Option.some.injEq] at h
        exact h ▸ ha

theorem getLast?_reverse_eq_head? (l : List Char) :
    l.reverse.getLast? = l.head? := by
  cases l with
  | nil => rfl
  | cons c cs => simp

/-- Decomposition of JS `trim`: the leading-whitespace-dropped list is
the trimmed list followed by an all-whitespace suffix. -/
theorem trimChars_decomp (l : List Char) :
    ∃ w, l.dropWhile isWsChar = trimChars l ++ w ∧ ∀ x ∈ w, isWsChar x = true := by
  set m := l.dropWhile isWsChar with hm
  refine ⟨(m.reverse.takeWhile isWsChar).reverse, ?_, ?_⟩
  · have h1 : m.reverse.takeWhile isWsChar ++ m.reverse.dropWhile isWsChar = m.reverse :=
      List.takeWhile_append_dropWhile isWsChar m.reverse
    have h2 := congrArg List.reverse h1
    simp only [List.reverse_append, List.reverse_reverse] at h2
    rw [trimChars, ← hm]
    exact h2.symm
  · intro x hx
    rw [List.mem_reverse] at hx
    exact List.mem_takeWhile_imp hx

theorem wordsOf_trimChars (l : List Char) :
    wordsOf (trimChars l) = wordsOf l := by
  obtain ⟨w, hw, hws⟩ := trimChars_decomp l
  have h1 : wordsOf (l.dropWhile isWsChar) = wordsOf l := wordsOf_dropWhile_ws l
  rw [hw, wordsOf_append_all_ws hws] at h1
  exact h1

theorem trimChars_head_not_ws {l : List Char} {c : Char}
    (h : (trimChars l).head? = some c) : isWsChar c = false := by
  obtain ⟨w, hw, _⟩ := trimChars_decomp l
  apply head?_dropWhile_ws (l := l)
  rw [hw]
  cases ht : trimChars l with
  | nil => rw [ht] at h; simp at h
  | cons a as => rw [ht] at h; simpa using h

theorem trimChars_noTrailingWs (l : List Char) : noTrailingWs (trimChars l) := by
  intro x hx
  rw [trimChars, getLast?_reverse_eq_head?] at hx
  exact head?_dropWhile_ws hx

/-- Core bridge: on a non-empty list with no trailing whitespace, the JS
field split is the clean word split, with one extra leading empty field
when the list starts with whitespace. -/
theorem splitFields_eq_wordsOf :
    ∀ l : List Char, l ≠ [] → noTrailingWs l →
      splitFields l = (if isWsHead l then [[]] else []) ++ wordsOf l := by
  refine twoStepInduction (by simp) ?_ ?_
  · intro c _ hlast
    have hc : isWsChar c = false := hlast c rfl
    simp [splitFields, wordsOf, isWsHead, hc]
  · intro c c2 cs ih _ _ hlast
    have hlast2 : noTrailingWs (c2 :: cs) := by
      intro x hx
      exact hlast x (by rw [List.getLast?_cons_cons]; exact hx)
    have ihe := ih (by simp) hlast2
    by_cases hc : isWsChar c = true
    · by_cases hc2 : isWsChar c2 = true
      · simp only [splitFields, hc, hc2, if_true]
        rw [ihe, wordsOf_ws_cons _ hc]
        simp [isWsHead, hc, hc2]
      · simp only [Bool.not_eq_true] at hc2
        simp only [splitFields, hc, hc2, if_true, Bool.false_eq_true, if_false]
        rw [ihe, wordsOf_ws_cons _ hc]
        simp [isWsHead, hc, hc2]
    · simp only [Bool.not_eq_true] at hc
      by_cases hc2 : isWsChar c2 = true
      · simp only [splitFields, hc, Bool.false_eq_true, if_false]
        rw [ihe]
        simp only [isWsHead, hc2, if_true]
        have : wordsOf (c :: c2 :: cs) = [c] :: wordsOf cs := by
          simp [wordsOf, hc, hc2]
        rw [this, wordsOf_ws_cons _ hc2]
        simp [isWsHead, hc]
      · simp only [Bool.not_eq_true] at hc2
        simp only [splitFields, hc, Bool.false_eq_true, if_false]
        rw [ihe]
        simp only [isWsHead, hc2, Bool.false_eq_true, if_false, List.nil_append]
        cases h3 : wordsOf (c2 :: cs) with
        | nil => exact absurd h3 (wordsOf_cons_ne_nil _ hc2)
        | cons w ws =>
            have : wordsOf (c :: c2 :: cs) = (c :: w) :: ws := by
              simp [wordsOf, hc, hc2, h3]
            rw [this]
            simp [isWsHead, hc]

/-- The JS pipeline `value.trim().split(/\s+/)` equals the clean word
split, except that a blank input collapses to the single field `[""]`. -/
theorem splitFields_trimChars (l : List Char) :
    splitFields (trimChars l) =
      if wordsOf l = [] then [[]] else wordsOf l := by
  by_cases ht : trimChars l = []
  · have : wordsOf l = [] := by
      rw [← wordsOf_trimChars l, ht]; rfl
    simp [ht, this, splitFields]
  · have hhead : isWsHead (trimChars l) = false := by
      cases h : trimChars l with
      | nil => exact absurd h ht
      | cons a as =>
          simp only [isWsHead]
          exact trimChars_head_not_ws (l := l) (by rw [h]; rfl)
    have hne : wordsOf l ≠ [] := by
      rw [← wordsOf_trimChars l]
      cases h : trimChars l with
      | nil => exact absurd h ht
      | cons a as =>
          have ha : isWsChar a = false := trimChars_head_not_ws (l := l) (by rw [h]; rfl)
          exact wordsOf_cons_ne_nil _ ha
    rw [splitFields_eq_wordsOf _ ht (trimChars_noTrailingWs l), hhead,
      wordsOf_trimChars l]
    simp [hne]

theorem wordsOf_mem_ne_nil : ∀ (l : List Char), ∀ w ∈ wordsOf l, w ≠ [] := by
  refine twoStepInduction (by simp [wordsOf]) ?_ ?_
  · intro c w hw
    by_cases hc : isWsChar c = true
    · simp [wordsOf, hc] at hw
    · simp only [Bool.not_eq_true] at hc
      simp only [wordsOf, hc, Bool.false_eq_true, if_false, List.mem_singleton] at hw
      simp [hw]
  · intro c c2 cs ih1 ih2 w hw
    by_cases hc : isWsChar c = true
    · rw [wordsOf_ws_cons _ hc] at hw
      exact ih1 w hw
    · simp only [Bool.not_eq_true] at hc
      by_cases hc2 : isWsChar c2 = true
      · simp only [wordsOf, hc, Bool.false_eq_true, if_false, hc2, if_true,
          List.mem_cons] at hw
        rcases hw with hw | hw
        · simp [hw]
        · exact ih2 w hw
      · simp only [Bool.not_eq_true] at hc2
        cases h3 : wordsOf (c2 :: cs) with
        | nil => exact absurd h3 (wordsOf_cons_ne_nil _ hc2)
        | cons w1 ws =>
            simp only [wordsOf, hc, Bool.false_eq_true, if_false, hc2, h3,
              List.mem_cons] at hw
            rcases hw with hw | hw
            · simp [hw]
            · exact ih1 w (by rw [h3]; exact List.mem_cons_of_mem _ hw)

theorem wsTokens_mem_ne_empty {s : String} : ∀ t ∈ wsTokens s, t ≠ "" := by
  intro t ht
  unfold wsTokens at ht
  rw [List.mem_map] at ht
  obtain ⟨w, hw, rfl⟩ := ht
  have := wordsOf_mem_ne_nil s.data w hw
  intro he
  apply this
  have : (String.mk w).data = ("" : String).data := by rw [he]
  simpa using this

/-- The code's `isNumericSearch` agrees with the specification reading
"the text has at least one whitespace-separated token and every token
matches `^\d+$`" (a blank or whitespace-only text has no tokens and is
not numeric, matching the JS pipeline where `"".split(/\s+/)` is
`[""]`). -/
theorem isNumericSearch_iff (s : String) :
    isNumericSearch s = true ↔
      wsTokens s ≠ [] ∧ ∀ t ∈ wsTokens s, testDigits t = true := by
  unfold isNumericSearch jsSplitWs jsTrim wsTokens
  have hd : (String.mk (trimChars s.data)).data = trimChars s.data := rfl
  rw [hd, splitFields_trimChars]
  by_cases h : wordsOf s.data = []
  · simp [h, testDigits]
  · simp [h, List.all_eq_true]

/-- `search ? formatSearchQuery(search) : ''` is exactly the
comma-join of the tokens of `search`. -/
theorem formattedSearch_eq (s : String) :
    (if jsTruthy s then formatSearchQuery s else "") =
      jsJoinComma (wsTokens s) := by
  by_cases hs : s = ""
  · subst hs
    have : wsTokens "" = [] := rfl
    simp [jsTruthy, this, jsJoinComma]
  · have ht : jsTruthy s = true := by simp [jsTruthy, hs]
    rw [ht, if_pos rfl]
    unfold formatSearchQuery jsSplitWs jsTrim wsTokens
    have hd : (String.mk (trimChars s.data)).data = trimChars s.data := rfl
    rw [hd, splitFields_trimChars]
    by_cases h : wordsOf s.data = []
    · simp [h, jsJoinComma]
    · simp [h]

theorem jsJoinComma_ne_empty : ∀ (ts : List String), ts ≠ [] →
    (∀ t ∈ ts, t ≠ "") → jsJoinComma ts ≠ "" := by
  intro ts
  match ts with
  | [] => intro h; exact absurd rfl h
  | [t] =>
      intro _ h2
      simpa [jsJoinComma] using h2 t (by simp)
  | t :: t2 :: rest =>
      intro _ _ he
      have := congrArg String.length he
      simp only [jsJoinComma, String.length_append] at this
      have h1 : (",").length = 1 := rfl
      have h0 : ("" : String).length = 0 := rfl
      rw [h1, h0] at this
      omega

theorem jsTruthy_join_tokens (s : String) :
    jsTruthy (jsJoinComma (wsTokens s)) = true ↔ wsTokens s ≠ [] := by
  constructor
  · intro h hnil
    rw [hnil] at h
    simp [jsJoinComma, jsTruthy] at h
  · intro h
    have := jsJoinComma_ne_empty (wsTokens s) h wsTokens_mem_ne_empty
    simp [jsTruthy, this]

/-- The request `fetchPokemon` computes, re-expressed through the
specification-side tokenizer. -/
theorem planRequest_spec (search : String) (sb : Option Bool) (page : Nat) :
    planRequest search sb page =
      if shouldSearchByNumber sb search = true ∧ wsTokens search ≠ [] then
        CatalogRequest.getByNumber (jsJoinComma (wsTokens search))
      else
        CatalogRequest.getList
          { limit := 21
            offset := (page - 1) * 21
            search := if wsTokens search = [] then none
                      else some (jsJoinComma (wsTokens search))
            sortBy := if shouldSearchByNumber sb search then SortByParam.number
                      else SortByParam.name
            sortOrder := SortOrderParam.asc } := by
  unfold planRequest
  rw [formattedSearch_eq]
  by_cases hn : shouldSearchByNumber sb search = true
  · by_cases htok : wsTokens search = []
    · have hf : jsTruthy (jsJoinComma ([] : List String)) = false := rfl
      simp [hf, hn, htok, itemsPerPage]
    · have hf : jsTruthy (jsJoinComma (wsTokens search)) = true :=
        (jsTruthy_join_tokens search).mpr htok
      simp [hf, hn, htok]
  · simp only [Bool.not_eq_true] at hn
    by_cases htok : wsTokens search = []
    · have hf : jsTruthy (jsJoinComma ([] : List String)) = false := rfl
      simp [hf, hn, htok, itemsPerPage]
    · have hf : jsTruthy (jsJoinComma (wsTokens search)) = true :=
        (jsTruthy_join_tokens search).mpr htok
      simp [hf, hn, htok, itemsPerPage]

theorem applyFetchResponse_success {req : CatalogRequest} {r : CatalogResult}
    {d : PageData} (s0 : HomeState) (hs : r.success = true) (hd : r.data = some d) :
    applyFetchResponse req r s0 =
      { s0 with pokemon := d.results
                totalPages := ceilDiv d.pagination.total itemsPerPage } := by
  cases req <;> simp [applyFetchResponse, hs, hd]

theorem applyFetchResponse_failure {req : CatalogRequest} {r : CatalogResult}
    (s0 : HomeState) (hfail : fetchFailed r) :
    applyFetchResponse req r s0 =
      match req with
      | CatalogRequest.getByNumber _ => { s0 with pokemon := [], totalPages := 1 }
      | CatalogRequest.getList _ =>
          { s0 with error := jsOrElse r.error "Failed to load Pokémon" } := by
  rcases hfail with hf | hf
  · cases req <;> cases hd : r.data <;> simp [applyFetchResponse, hf, hd]
  · cases req <;> cases hs : r.success <;> simp [applyFetchResponse, hf, hs]

theorem applyFetchResponse_currentPage (req : CatalogRequest) (r : CatalogResult)
    (s0 : HomeState) : (applyFetchResponse req r s0).currentPage = s0.currentPage := by
  cases req <;> cases hs : r.success <;> cases hd : r.data <;>
    simp [applyFetchResponse, hs, hd]

/-- A fetch never changes `currentPage` (only `setCurrentPage` does). -/
theorem fetchPokemon_currentPage (search : String) (sb : Option Bool)
    (respond : CatalogRequest → CatalogResult) (s : HomeState) :
    (fetchPokemon search sb respond s).1.currentPage = s.currentPage := by
  simp [fetchPokemon, applyFetchResponse_currentPage]

/-- C1.  Mode resolution: the resolved query mode is identifier search
exactly when `sortMode` is `ByIdentifier` (`sortByNumber === true`), or
`sortMode` is `Unset` (`null`) and the search text is non-empty with at
least one whitespace-separated token, every token matching `^\d+$`.
`ByName` (`false`) always resolves to name search, and any token with a
non-digit character (e.g. `"mega1"`) resolves to name search.  (A
whitespace-only text has no tokens and resolves to name search, in
accordance with the spec's whitespace edge-case clause.) -/
theorem C1_mode_resolution (sortMode : Option Bool) (search : String) :
    shouldSearchByNumber sortMode search = true ↔
      sortMode = some true ∨
      (sortMode = none ∧ search ≠ "" ∧ wsTokens search ≠ [] ∧
        ∀ t ∈ wsTokens search, testDigits t = true) := by
  match sortMode with
  | some true => simp [shouldSearchByNumber]
  | some false => simp [shouldSearchByNumber]
  | none =>
      by_cases hs : search = ""
      · subst hs
        simp [shouldSearchByNumber, jsTruthy]
      · have ht : jsTruthy search = true := by simp [jsTruthy, hs]
        simp only [shouldSearchByNumber, ht, if_true, isNumericSearch_iff]
        simp [hs]

/-- C2.  Request dispatch: every fetch issues exactly one remote call;
it is the identifier lookup with the comma-joined tokens when the
resolved mode is identifier search and the trimmed text is non-empty
(has tokens), and otherwise the general listing with `limit = 21`,
`offset = (page-1)*21`, `search` the comma-joined tokens (absent when
the text is empty or whitespace-only), `sortBy` mirroring the resolved
mode, and ascending order. -/
theorem C2_request_dispatch (search : String) (sb : Option Bool)
    (respond : CatalogRequest → CatalogResult) (s : HomeState) :
    (fetchPokemon search sb respond s).2 =
      [if shouldSearchByNumber sb search = true ∧ wsTokens search ≠ [] then
        CatalogRequest.getByNumber (jsJoinComma (wsTokens search))
      else
        CatalogRequest.getList
          { limit := 21
            offset := (s.currentPage - 1) * 21
            search := if wsTokens search = [] then none
                      else some (jsJoinComma (wsTokens search))
            sortBy := if shouldSearchByNumber sb search then SortByParam.number
                      else SortByParam.name
            sortOrder := SortOrderParam.asc }] := by
  simp only [fetchPokemon]
  rw [planRequest_spec]

/-- C8.  After every successful fetch (either endpoint), the result set
is replaced by the response's `results` and `totalPages` becomes
`ceil(total / 21)` of the response's pagination total. -/
theorem C8_success_recompute (search : String) (sb : Option Bool)
    (respond : CatalogRequest → CatalogResult) (s : HomeState) (d : PageData)
    (hs : (respond (planRequest search sb s.currentPage)).success = true)
    (hd : (respond (planRequest search sb s.currentPage)).data = some d) :
    (fetchPokemon search sb respond s).1.pokemon = d.results ∧
    (fetchPokemon search sb respond s).1.totalPages = ceilDiv d.pagination.total 21 := by
  have h := @applyFetchResponse_success (planRequest search sb s.currentPage) _ _
    { s with isLoading := true, error := "" } hs hd
  simp [fetchPokemon, h, itemsPerPage]

/-- Witness for C8: a response with `pagination.total = 46` yields
`totalPages = 3` and the displayed list is replaced. -/
theorem C8_success_recompute_witness :
    (fetchPokemon "" none (respondWith page46) homeInit).1.pokemon = [pokeBulbasaur] ∧
    (fetchPokemon "" none (respondWith page46) homeInit).1.totalPages = 3 := by
  have h := C8_success_recompute "" none (respondWith page46) homeInit page46 rfl rfl
  exact ⟨h.1, by rw [h.2]; decide⟩

/-- Counterexample to C6 as stated: a failed general-listing fetch (the
remote returns `success=false, error="boom"`) surfaces the error but
does not clear the previously displayed results, so "the current
ResultPage is cleared to record count 0" is false. -/
theorem C6_counterexample : ¬C6asStated := by
  intro h
  have hp := (h "" none (respondFail "boom") homeSeeded (Or.inl rfl)).1
  exact absurd hp (by decide)

/-- C6 amended.  On a failed fetch the query state is never rolled back
(`currentPage` is preserved; the committed text and sort mode are
inputs and untouched), but the two endpoints recover differently:
a failed identifier lookup clears the result list, resets `totalPages`
to 1 and surfaces no error message, while a failed general listing
surfaces the server-supplied-or-generic error message and leaves the
previous result list in place. -/
theorem C6_failure_handling (search : String) (sb : Option Bool)
    (respond : CatalogRequest → CatalogResult) (s : HomeState)
    (hfail : fetchFailed (respond (planRequest search sb s.currentPage))) :
    ((shouldSearchByNumber sb search = true ∧ wsTokens search ≠ []) →
        (fetchPokemon search sb respond s).1.pokemon = [] ∧
        (fetchPokemon search sb respond s).1.totalPages = 1 ∧
        (fetchPokemon search sb respond s).1.error = "") ∧
    (¬(shouldSearchByNumber sb search = true ∧ wsTokens search ≠ []) →
        (fetchPokemon search sb respond s).1.error =
          jsOrElse (respond (planRequest search sb s.currentPage)).error
            "Failed to load Pokémon" ∧
        (fetchPokemon search sb respond s).1.error ≠ "" ∧
        (fetchPokemon search sb respond s).1.pokemon = s.pokemon) ∧
    (fetchPokemon search sb respond s).1.currentPage = s.currentPage := by
  have hreq := planRequest_spec search sb s.currentPage
  have hfl := @applyFetchResponse_failure (planRequest search sb s.currentPage) _
    { s with isLoading := true, error := "" } hfail
  refine ⟨?_, ?_, fetchPokemon_currentPage search sb respond s⟩
  · intro hcond
    rw [if_pos hcond] at hreq
    rw [hreq] at hfl
    simp [fetchPokemon, hreq, hfl]
  · intro hcond
    rw [if_neg hcond] at hreq
    rw [hreq] at hfl
    constructor
    · simp [fetchPokemon, hreq, hfl]
    constructor
    · have : jsOrElse (respond (planRequest search sb s.currentPage)).error
          "Failed to load Pokémon" ≠ "" := by
        cases he : (respond (planRequest search sb s.currentPage)).error with
        | none => decide
        | some msg =>
            by_cases hm : msg = ""
            · subst hm; decide
            · simp [jsOrElse, jsTruthy, hm]
      simpa [fetchPokemon, hreq, hfl] using this
    · simp [fetchPokemon, hreq, hfl]

/-- Witness for C6 (amended): concrete failing identifier lookup and the
page preservation conjunct. -/
theorem C6_failure_handling_witness :
    (fetchPokemon "25" none (respondFail "oops") homeSeeded).1.pokemon = [] ∧
    (fetchPokemon "25" none (respondFail "oops") homeSeeded).1.error = "" ∧
    (fetchPokemon "25" none (respondFail "oops") homeSeeded).1.currentPage = 1 := by
  have h := C6_failure_handling "25" none (respondFail "oops") homeSeeded (Or.inl rfl)
  have h1 := h.1 ⟨by decide, by decide⟩
  exact ⟨h1.1, h1.2.2, h.2.2⟩

theorem jsOrElse_ne_empty (e : Option String) {f : String} (hf : f ≠ "") :
    jsOrElse e f ≠ "" := by
  cases e with
  | none => simpa [jsOrElse] using hf
  | some msg =>
      by_cases hm : msg = ""
      · simpa [jsOrElse, jsTruthy, hm] using hf
      · simp [jsOrElse, jsTruthy, hm]

/-- C3.  Bootstrap: with both keys present (per the code's `token &&
savedUser` guard), a successful verify restores exactly the persisted
profile, whatever profile data the verify response itself carries; a
rejected or throwing verify deletes both keys and ends unauthenticated;
with the guard false, the bootstrap ends unauthenticated without any
remote call. -/
theorem C3_bootstrap (store : Store) (verify : String → VerifyOutcome) :
    (∀ t u, store.token = some t → store.user = some u → jsTruthy t = true →
      (∀ d e, verify t = VerifyOutcome.resolved true d e →
        checkAuth store verify =
          (store, { user := some u, isLoading := false }, [AuthCall.verify t])) ∧
      (∀ d e, verify t = VerifyOutcome.resolved false d e →
        checkAuth store verify =
          ({ token := none, user := none }, { user := none, isLoading := false },
            [AuthCall.verify t])) ∧
      (verify t = VerifyOutcome.threw →
        checkAuth store verify =
          ({ token := none, user := none }, { user := none, isLoading := false },
            [AuthCall.verify t]))) ∧
    (storePresent store = false →
      checkAuth store verify = (store, { user := none, isLoading := false }, [])) := by
  constructor
  · intro t u htok huser htruth
    refine ⟨?_, ?_, ?_⟩
    · intro d e hv
      simp [checkAuth, htok, huser, htruth, hv]
    · intro d e hv
      simp [checkAuth, htok, huser, htruth, hv]
    · intro hv
      simp [checkAuth, htok, huser, htruth, hv]
  · intro habs
    unfold storePresent at habs
    cases htok : store.token with
    | none => simp [checkAuth, htok]
    | some t =>
        cases huser : store.user with
        | none => simp [checkAuth, htok, huser]
        | some u =>
            rw [htok, huser] at habs
            simp only [] at habs
            simp [checkAuth, htok, huser, habs]

/-- Witness for C3: a persisted alice session restored by a succeeding
verify, and an empty store resolving without a remote call. -/
theorem C3_bootstrap_witness :
    checkAuth aliceStore verifyOk =
      (aliceStore, { user := some aliceUser, isLoading := false },
        [AuthCall.verify "tok"]) ∧
    checkAuth { token := none, user := none } verifyOk =
      ({ token := none, user := none }, { user := none, isLoading := false }, []) := by
  constructor
  · exact ((C3_bootstrap aliceStore verifyOk).1 "tok" aliceUser rfl rfl (by decide)).1
      none none rfl
  · exact (C3_bootstrap { token := none, user := none } verifyOk).2 rfl

/-- C4.  Login atomicity: a successful login writes both keys with the
returned credential and profile and authenticates; a rejected login or
a thrown transport error returns a failure carrying a non-empty error
message and mutates nothing — neither the store nor the auth state. -/
theorem C4_login_atomicity (store : Store) (st : AuthState)
    (username password : String) (outcome : LoginOutcome) :
    (∀ d e, outcome = LoginOutcome.resolved true (some d) e →
      login store st username password outcome =
        ({ token := some d.token, user := some d.user },
         { st with user := some d.user },
         { success := true, error := none },
         [AuthCall.login username password])) ∧
    (∀ s dta e, outcome = LoginOutcome.resolved s dta e → s = false ∨ dta = none →
      login store st username password outcome =
        (store, st,
         { success := false, error := some (jsOrElse e "Login failed") },
         [AuthCall.login username password]) ∧
      jsOrElse e "Login failed" ≠ "") ∧
    (outcome = LoginOutcome.threw →
      login store st username password outcome =
        (store, st,
         { success := false, error := some "Network error. Please try again." },
         [AuthCall.login username password])) := by
  refine ⟨?_, ?_, ?_⟩
  · intro d e hout
    subst hout
    simp [login]
  · intro s dta e hout hfd
    subst hout
    refine ⟨?_, jsOrElse_ne_empty e (by decide)⟩
    rcases hfd with rfl | rfl
    · cases dta <;> simp [login]
    · cases s <;> simp [login]
  · intro hout
    subst hout
    simp [login]

/-- Witness for C4: a concrete successful login and a concrete
rejection. -/
theorem C4_login_atomicity_witness :
    login { token := none, user := none } { user := none, isLoading := false }
        "admin" "admin" loginOkOutcome =
      ({ token := some "t1", user := some aliceUser },
       { user := some aliceUser, isLoading := false },
       { success := true, error := none },
       [AuthCall.login "admin" "admin"]) ∧
    login { token := none, user := none } { user := none, isLoading := false }
        "admin" "bad" (LoginOutcome.resolved false none (some "Invalid credentials")) =
      ({ token := none, user := none }, { user := none, isLoading := false },
       { success := false, error := some "Invalid credentials" },
       [AuthCall.login "admin" "bad"]) := by
  constructor
  · exact (C4_login_atomicity { token := none, user := none }
      { user := none, isLoading := false } "admin" "admin" loginOkOutcome).1
      { token := "t1", user := aliceUser } none rfl
  · have h := ((C4_login_atomicity { token := none, user := none }
      { user := none, isLoading := false } "admin" "bad"
      (LoginOutcome.resolved false none (some "Invalid credentials"))).2.1
      false none (some "Invalid credentials") rfl (Or.inl rfl)).1
    rw [h]
    rfl

/-- Counterexample to C5 as stated: `logout()` issues no remote call at
all, so "additionally issues a best-effort notification to
RemoteAuthority" is false (the `authApi.logout` helper exists in
`api.ts` but `AuthContext.logout` never calls it). -/
theorem C5_counterexample : ¬C5asStated := by
  intro h
  exact (h aliceStore { user := some aliceUser, isLoading := false }).2.2 rfl

/-- C5 amended.  `logout()` always deletes both PersistentStore entries
and sets the session unauthenticated, independently of RemoteAuthority
(which it never consults): the local transition is unconditional and no
remote call is issued. -/
theorem C5_logout_local (store : Store) (st : AuthState) :
    (logout store st).1.token = none ∧
    (logout store st).1.user = none ∧
    (logout store st).2.1.user = none ∧
    (logout store st).2.1.isLoading = st.isLoading ∧
    (logout store st).2.2 = [] := by
  simp [logout]

/-- Counterexample to C10 as stated: from an initial store holding a
credential but no profile, bootstrap takes the `token && savedUser`
failure path without touching the store, leaving the mismatch in
place. -/
theorem C10_counterexample : ¬C10asStated := by
  intro h
  exact absurd (h.1 mismatchedStore (fun _ => VerifyOutcome.threw)) (by decide)

/-- C10 amended.  No operation ever writes or deletes just one of the
two keys: bootstrap and login preserve the both-present-or-both-absent
pairing from any paired store, and logout (or any key-clearing path)
re-establishes it unconditionally. -/
theorem C10_pairing (store : Store) (st : AuthState) :
    (∀ verify : String → VerifyOutcome, pairedStore store →
      pairedStore (checkAuth store verify).1) ∧
    (∀ (u p : String) (outcome : LoginOutcome), pairedStore store →
      pairedStore (login store st u p outcome).1) ∧
    pairedStore (logout store st).1 := by
  refine ⟨?_, ?_, ?_⟩
  · intro verify hp
    cases htok : store.token with
    | none => simpa [checkAuth, htok] using hp
    | some t =>
        cases huser : store.user with
        | none => simpa [checkAuth, htok, huser] using hp
        | some u =>
            by_cases htr : jsTruthy t = true
            · cases hv : verify t with
              | resolved success d e =>
                  cases success
                  · simp [checkAuth, htok, huser, htr, hv, pairedStore]
                  · simpa [checkAuth, htok, huser, htr, hv] using hp
              | threw => simp [checkAuth, htok, huser, htr, hv, pairedStore]
            · simp only [Bool.not_eq_true] at htr
              simpa [checkAuth, htok, huser, htr] using hp
  · intro u p outcome hp
    cases outcome with
    | resolved s dta e =>
        cases s <;> cases dta <;> first
          | simpa [login] using hp
          | simp [login, pairedStore]
    | threw => simpa [login] using hp
  · simp [logout, pairedStore]

/-- Witness for C10 (amended): pairing preserved through a concrete
bootstrap and a concrete login from a paired store. -/
theorem C10_pairing_witness :
    pairedStore (checkAuth aliceStore verifyOk).1 ∧
    pairedStore (login { token := none, user := none }
      { user := none, isLoading := false } "admin" "admin" loginOkOutcome).1 := by
  constructor
  · exact (C10_pairing aliceStore { user := none, isLoading := false }).1
      verifyOk (by decide)
  · exact (C10_pairing { token := none, user := none }
      { user := none, isLoading := false }).2.1 "admin" "admin" loginOkOutcome (by decide)

theorem settle_stable (respond : CatalogRequest → CatalogResult) (fuel : Nat)
    (q : QueryModel) (h : stableModel q) :
    settle respond (fuel + 1) q = (q, []) := by
  simp [settle, h]

theorem settle_unstable (respond : CatalogRequest → CatalogResult) (fuel : Nat)
    (q : QueryModel) (h : ¬ stableModel q) :
    settle respond (fuel + 1) q =
      ((settle respond fuel (commitEffects respond q).1).1,
        (commitEffects respond q).2 ++
          (settle respond fuel (commitEffects respond q).1).2) := by
  simp [settle, h]

theorem commitEffects_both (respond : CatalogRequest → CatalogResult)
    (q : QueryModel) (hfetch : q.prevFetchDeps ≠ some (fetchDepsOf q))
    (hreset : q.prevResetDeps ≠ some (resetDepsOf q)) :
    commitEffects respond q =
      ({ q with home := { (fetchPokemon q.search q.sortByNumber respond q.home).1
                            with currentPage := 1 }
                prevFetchDeps := some (fetchDepsOf q)
                prevResetDeps := some (resetDepsOf q) },
       (fetchPokemon q.search q.sortByNumber respond q.home).2) := by
  simp only [fetchDepsOf, resetDepsOf] at hfetch hreset
  simp [commitEffects, hfetch, hreset, fetchDepsOf, resetDepsOf]

theorem commitEffects_fetch_only (respond : CatalogRequest → CatalogResult)
    (q : QueryModel) (hfetch : q.prevFetchDeps ≠ some (fetchDepsOf q))
    (hreset : q.prevResetDeps = some (resetDepsOf q)) :
    commitEffects respond q =
      ({ q with home := (fetchPokemon q.search q.sortByNumber respond q.home).1
                prevFetchDeps := some (fetchDepsOf q) },
       (fetchPokemon q.search q.sortByNumber respond q.home).2) := by
  simp only [fetchDepsOf, resetDepsOf] at hfetch hreset
  simp [commitEffects, hfetch, hreset, fetchDepsOf, resetDepsOf]

/-- After the committed search text or the sort mode changes from a
quiescent state, the model settles with `currentPage = 1`, but the
fetch effect (declared first) fires before the page-reset effect: when
the page was not 1, one request with the stale page precedes the
request at page 1. -/
theorem settle_filter_change (respond : CatalogRequest → CatalogResult)
    (q : QueryModel) (v : String) (sb : Option Bool)
    (hst : stableModel q) (hch : (v, sb) ≠ (q.search, q.sortByNumber)) :
    (settle respond 4 { q with search := v, sortByNumber := sb }).1.home.currentPage = 1 ∧
    stableModel (settle respond 4 { q with search := v, sortByNumber := sb }).1 ∧
    (settle respond 4 { q with search := v, sortByNumber := sb }).2 =
      (if q.home.currentPage = 1 then [planRequest v sb 1]
       else [planRequest v sb q.home.currentPage, planRequest v sb 1]) := by
  obtain ⟨hf, hr⟩ := hst
  set q1 : QueryModel := { q with search := v, sortByNumber := sb } with hq1
  set r1 : HomeState × List CatalogRequest := fetchPokemon v sb respond q.home with hr1
  set q2 : QueryModel :=
    { search := v, sortByNumber := sb, home := { r1.1 with currentPage := 1 },
      prevFetchDeps := some (q.home.currentPage, v, sb),
      prevResetDeps := some (v, sb) } with hq2
  have hfetch1 : q1.prevFetchDeps ≠ some (fetchDepsOf q1) := by
    show q.prevFetchDeps ≠ _
    rw [hf]
    intro hcon
    apply hch
    have h2 := Option.some.inj hcon
    simp only [fetchDepsOf, hq1, Prod.mk.injEq] at h2
    simp [h2.2.1, h2.2.2]
  have hreset1 : q1.prevResetDeps ≠ some (resetDepsOf q1) := by
    show q.prevResetDeps ≠ _
    rw [hr]
    intro hcon
    apply hch
    have h2 := Option.some.inj hcon
    simp only [resetDepsOf, hq1, Prod.mk.injEq] at h2
    simp [h2.1, h2.2]
  have e2 : commitEffects respond q1 = (q2, r1.2) :=
    commitEffects_both respond q1 hfetch1 hreset1
  have e1 : settle respond 4 q1 =
      ((settle respond 3 q2).1, r1.2 ++ (settle respond 3 q2).2) := by
    have t := settle_unstable respond 3 q1 (fun hs => hfetch1 hs.1)
    rw [e2] at t
    exact t
  by_cases hpage : q.home.currentPage = 1
  · have hstable2 : stableModel q2 := by
      refine ⟨?_, ?_⟩
      · simp [hq2, fetchDepsOf, hpage]
      · simp [hq2, resetDepsOf]
    have e3 : settle respond 3 q2 = (q2, []) := settle_stable respond 2 q2 hstable2
    rw [e1, e3]
    refine ⟨by simp [hq2], by simpa using hstable2, ?_⟩
    rw [if_pos hpage]
    simp [hr1, fetchPokemon, hpage]
  · have hfetch2 : q2.prevFetchDeps ≠ some (fetchDepsOf q2) := by
      simp [hq2, fetchDepsOf, hpage]
    have hreset2 : q2.prevResetDeps = some (resetDepsOf q2) := by
      simp [hq2, resetDepsOf]
    set r2 : HomeState × List CatalogRequest := fetchPokemon v sb respond q2.home with hr2
    set q3 : QueryModel :=
      { search := v, sortByNumber := sb, home := r2.1,
        prevFetchDeps := some (1, v, sb),
        prevResetDeps := some (v, sb) } with hq3
    have e4 : commitEffects respond q2 = (q3, r2.2) :=
      commitEffects_fetch_only respond q2 hfetch2 hreset2
    have hstable3 : stableModel q3 := by
      refine ⟨?_, ?_⟩
      · simp [hq3, fetchDepsOf, hr2, fetchPokemon_currentPage, hq2]
      · simp [hq3, resetDepsOf]
    have e5 : settle respond 2 q3 = (q3, []) := settle_stable respond 1 q3 hstable3
    have e6 : settle respond 3 q2 = (q3, r2.2) := by
      have t := settle_unstable respond 2 q2 (fun hs => hfetch2 hs.1)
      rw [e4, e5] at t
      simpa using t
    rw [e1, e6]
    refine ⟨?_, by simpa using hstable3, ?_⟩
    · simp [hq3, hr2, fetchPokemon_currentPage, hq2]
    · rw [if_neg hpage]
      simp [hr1, hr2, fetchPokemon, hq2]

/-- Counterexample to C7 as stated: from a quiescent model on page 3, a
new committed search text triggers the fetch effect (declared first)
before the page-reset effect, so the first request issued still uses
page 3 (offset 42), not page 1. -/
theorem C7_counterexample : ¬C7asStated := by
  intro h
  exact absurd (h.1 (respondWith page46) queryPage3 "mew" ⟨rfl, rfl⟩ (by decide))
    (by decide)

/-- C7 amended.  Whenever the committed search text or the sort mode
changes to a new value, a dedicated effect resets the page to 1 and the
model settles with page = 1, with the last fetch issued at page 1 — but
the fetch effect is declared before the reset effect, so when the page
was not 1 one extra fetch with the new filter and the stale page
precedes it.  No operation other than `setCurrentPage` and this reset
changes the page: in particular a fetch never does. -/
theorem C7_page_reset (respond : CatalogRequest → CatalogResult) (q : QueryModel) :
    (∀ v : String, stableModel q → v ≠ q.search →
      (settle respond 4 (applySetSearch v q)).1.home.currentPage = 1 ∧
      (settle respond 4 (applySetSearch v q)).2 =
        (if q.home.currentPage = 1 then [planRequest v q.sortByNumber 1]
         else [planRequest v q.sortByNumber q.home.currentPage,
               planRequest v q.sortByNumber 1])) ∧
    (∀ b : Bool, stableModel q → some b ≠ q.sortByNumber →
      (settle respond 4 (applySetSort b q)).1.home.currentPage = 1 ∧
      (settle respond 4 (applySetSort b q)).2 =
        (if q.home.currentPage = 1 then [planRequest q.search (some b) 1]
         else [planRequest q.search (some b) q.home.currentPage,
               planRequest q.search (some b) 1])) ∧
    (∀ (search : String) (sb : Option Bool) (s : HomeState),
      (fetchPokemon search sb respond s).1.currentPage = s.currentPage) := by
  refine ⟨?_, ?_, fun search sb s => fetchPokemon_currentPage search sb respond s⟩
  · intro v hst hv
    have hch : (v, q.sortByNumber) ≠ (q.search, q.sortByNumber) := by
      intro hcon
      exact hv (congrArg Prod.fst hcon)
    have h := settle_filter_change respond q v q.sortByNumber hst hch
    exact ⟨h.1, h.2.2⟩
  · intro b hst hb
    have hch : (q.search, some b) ≠ (q.search, q.sortByNumber) := by
      intro hcon
      exact hb (congrArg Prod.snd hcon)
    have h := settle_filter_change respond q q.search (some b) hst hch
    exact ⟨h.1, h.2.2⟩

/-- Witness for C7 (amended): from page 3, a new search settles on page
1 after a stale-page fetch followed by the page-1 fetch. -/
theorem C7_page_reset_witness :
    (settle (respondWith page46) 4 (applySetSearch "mew" queryPage3)).1.home.currentPage
      = 1 ∧
    (settle (respondWith page46) 4 (applySetSearch "mew" queryPage3)).2 =
      [planRequest "mew" none 3, planRequest "mew" none 1] := by
  have h := (C7_page_reset (respondWith page46) queryPage3).1 "mew" ⟨rfl, rfl⟩
    (by decide)
  refine ⟨h.1, ?_⟩
  rw [h.2, if_neg (by decide)]
  rfl

/-- A chain of keystrokes each arriving before the pending deadline
commits nothing, and leaves the timer armed for the last value. -/
theorem runKeys_no_commit :
    ∀ (es : List (Nat × String)) (d : Nat) (cv x : String),
      withinWindow d es = true →
      (runKeys { inputValue := x, timer := some (d, cv) } es).2 = [] ∧
      (runKeys { inputValue := x, timer := some (d, cv) } es).1 =
        (match es.getLast? with
         | none => { inputValue := x, timer := some (d, cv) }
         | some (t, v) => { inputValue := v, timer := some (t + 300, v) }) := by
  intro es
  induction es with
  | nil => intro d cv x _; exact ⟨rfl, rfl⟩
  | cons e rest ih =>
      intro d cv x hw
      obtain ⟨t, v⟩ := e
      simp only [withinWindow, Bool.and_eq_true, decide_eq_true_eq] at hw
      obtain ⟨hlt, hrest⟩ := hw
      have hnofire : ¬ d ≤ t := by omega
      have hstep : debounceKey t v { inputValue := x, timer := some (d, cv) } =
          ({ inputValue := v, timer := some (t + 300, v) }, []) := by
        simp [debounceKey, hnofire]
      have hrun : runKeys { inputValue := x, timer := some (d, cv) } ((t, v) :: rest) =
          ((runKeys { inputValue := v, timer := some (t + 300, v) } rest).1,
            [] ++ (runKeys { inputValue := v, timer := some (t + 300, v) } rest).2) := by
        simp only [runKeys, hstep]
      have hih := ih (t + 300) v v hrest
      rw [hrun]
      cases rest with
      | nil => exact ⟨by simp [runKeys], by simp [runKeys]⟩
      | cons a as =>
          refine ⟨by simpa using hih.1, ?_⟩
          rw [List.getLast?_cons_cons]
          simpa using hih.2

/-- C9.  Trailing-edge debounce: every `setRawSearchText` call updates
the visible raw text immediately; for a burst of calls each strictly
within 300 ms of the preceding one, no commit fires during the burst
and after 300 ms of quiescence exactly one commit fires, carrying the
final value; a newly committed value then causes exactly one fetch
(from a quiescent page-1 model). -/
theorem C9_debounce (x v0 : String) (t0 : Nat) (es : List (Nat × String))
    (hchain : withinWindow (t0 + 300) es = true) :
    (∀ (t : Nat) (v : String) (s : DebounceState),
      (debounceKey t v s).1.inputValue = v) ∧
    (runKeys { inputValue := x, timer := none } ((t0, v0) :: es)).2 = [] ∧
    flushTimer (runKeys { inputValue := x, timer := none } ((t0, v0) :: es)).1 =
      (match ((t0, v0) :: es).getLast? with
       | some (t, v) => [(t + 300, v)]
       | none => []) ∧
    (∀ (respond : CatalogRequest → CatalogResult) (q : QueryModel) (v : String),
      stableModel q → q.home.currentPage = 1 → v ≠ q.search →
      (settle respond 4 (applySetSearch v q)).2 = [planRequest v q.sortByNumber 1]) := by
  have hstep : debounceKey t0 v0 { inputValue := x, timer := none } =
      ({ inputValue := v0, timer := some (t0 + 300, v0) }, []) := rfl
  have hrun : runKeys { inputValue := x, timer := none } ((t0, v0) :: es) =
      ((runKeys { inputValue := v0, timer := some (t0 + 300, v0) } es).1,
        [] ++ (runKeys { inputValue := v0, timer := some (t0 + 300, v0) } es).2) := by
    simp only [runKeys, hstep]
  have h := runKeys_no_commit es (t0 + 300) v0 v0 hchain
  refine ⟨fun t v s => rfl, ?_, ?_, ?_⟩
  · rw [hrun]
    simpa using h.1
  · rw [hrun]
    cases es with
    | nil => rfl
    | cons a as =>
        rw [List.getLast?_cons_cons]
        have h2 := h.2
        cases hlast : (a :: as).getLast? with
        | none =>
            have hsome : (a :: as).getLast?.isSome = true := by
              rw [List.getLast?_isSome]
              simp
            rw [hlast] at hsome
            simp at hsome
        | some e2 =>
            obtain ⟨t2, v2⟩ := e2
            rw [hlast] at h2
            rw [h2]
            rfl
  · intro respond q v hst hp hv
    have hch : (v, q.sortByNumber) ≠ (q.search, q.sortByNumber) := by
      intro hcon
      exact hv (congrArg Prod.fst hcon)
    have hs := (settle_filter_change respond q v q.sortByNumber hst hch).2.2
    rw [if_pos hp] at hs
    exact hs

/-- Witness for C9: the burst "p","pi","pik" at 0 ms, 100 ms, 200 ms
commits exactly `"pik"` at 500 ms, and the commit causes exactly one
fetch. -/
theorem C9_debounce_witness :
    (runKeys { inputValue := "", timer := none } keysPik).2 = [] ∧
    flushTimer (runKeys { inputValue := "", timer := none } keysPik).1 =
      [(500, "pik")] ∧
    (settle (respondWith page46) 4 (applySetSearch "pik" queryIdle)).2 =
      [planRequest "pik" none 1] := by
  have h := C9_debounce "" "p" 0 [(100, "pi"), (200, "pik")] (by decide)
  refine ⟨h.2.1, ?_, ?_⟩
  · have h3 := h.2.2.1
    rw [show keysPik = [(0, "p"), (100, "pi"), (200, "pik")] from rfl, h3]
    rfl
  · exact h.2.2.2 (respondWith page46) queryIdle "pik" ⟨rfl, rfl⟩ rfl (by decide)

end PokeApp
